import Mathlib

/-!
# bazo-client: transaction staging, dispatch and Merkle inclusion check

A shallow embedding of `REST/EPTransaction.go` and `client/validate.go`.

* Byte arrays (`[32]byte`, `[64]byte`, `[]byte`) are lists of naturals below 256.
* The hash functions of the external `protocol` library (`tx.Hash()`,
  `protocol.SerializeHashContent`) and the broadcast transport
  (`network.SendTx`) are parameters of the definitions.
* A Go run-time panic is an explicit outcome (`GoError.panic`, or `none`).
-/

namespace Bazo

/-! ## Bytes and hashes -/

/-- A byte string; a `[32]byte` hash is such a list of length 32. -/
abbrev Hash := List Nat

/-- The value a Go function of result type `error` hands back, or the panic that ends it. -/
inductive GoError where
  | nil
  | error (msg : String)
  | panic
deriving DecidableEq, Repr

/-- The table `0123456789abcdef` of `encoding/hex` and of the verb `%x`. -/
def hexDigit (n : Nat) : Char :=
  "0123456789abcdef".data.getD n '0'

/-- Two lower-case hex characters of one byte: `hextable[b>>4]`, `hextable[b&0x0f]`. -/
def hexByte (b : Nat) : List Char :=
  [hexDigit (b / 16 % 16), hexDigit (b % 16)]

/-- The characters of `hex.EncodeToString(bs)`; `fmt` prints a byte array with `%x` the same way. -/
def hexChars : List Nat → List Char
  | [] => []
  | b :: bs => hexByte b ++ hexChars bs

/-- Go `hex.EncodeToString`. -/
def hexEncode (bs : List Nat) : String :=
  String.mk (hexChars bs)

/-! ## client/validate.go -/

/-- The `for i := 0; i < len(nodes); i += 2` loop of `validateTx`, carrying `leafHash` and
`valid`. The node list is read two entries at a time (`nodes[i]`, `nodes[i+1]`); a trailing
single entry makes `nodes[i+1]` an index out of range, which is `none`. -/
def validateLoop (SerializeHashContent : List Nat → Hash) :
    List Hash → Hash → Bool → Option (Hash × Bool)
  | [], leafHash, valid => some (leafHash, valid)
  | [_], _, _ => none
  | node :: next :: rest, leafHash, valid =>
    let concatHash := leafHash ++ node
    let parentHash := SerializeHashContent concatHash
    if parentHash ≠ next then
      let concatHash := node ++ leafHash
      let parentHash := SerializeHashContent concatHash
      if parentHash ≠ next then
        validateLoop SerializeHashContent rest parentHash false
      else
        validateLoop SerializeHashContent rest parentHash valid
    else
      validateLoop SerializeHashContent rest parentHash valid

/-- The message of the error `validateTx` returns:
`fmt.Sprintf("Tx validation failed for %x\n", txHash)`. -/
def validationFailed (txHash : Hash) : String :=
  "Tx validation failed for " ++ hexEncode txHash ++ "\n"

/-- Go `validateTx(block, tx, txHash)`. `nodes` is what `reqIntermediateNodes(block.Hash, txHash)`
returned and `txHashOfTx` is `tx.Hash()`; both come from outside this file. -/
def validateTx (SerializeHashContent : List Nat → Hash) (nodes : List Hash)
    (txHashOfTx : Hash) (txHash : Hash) : GoError :=
  let valid := true
  let valid := if txHash ≠ txHashOfTx then false else valid
  let leafHash := txHash
  match validateLoop SerializeHashContent nodes leafHash valid with
  | none => GoError.panic
  | some (_, valid) =>
    if !valid then
      GoError.error (validationFailed txHash)
    else
      GoError.nil

/-- A Merkle proof as the specification presents it: one `(sibling, expectedParent)` pair per
level, leaf to root. -/
abbrev MerkleProof := List (Hash × Hash)

/-- The node list `nodes[0], nodes[1], ...` that carries a proof: each pair laid out as two
consecutive entries. -/
def proofNodes : MerkleProof → List Hash
  | [] => []
  | (sibling, expectedParent) :: rest => sibling :: expectedParent :: proofNodes rest

/-- The value of `leafHash` in `validateTx` once the levels of `proof` have been processed,
starting from `leafHash = start`. -/
def leafHashAfter (SerializeHashContent : List Nat → Hash) (start : Hash)
    (proof : MerkleProof) : Hash :=
  match validateLoop SerializeHashContent (proofNodes proof) start true with
  | some (leafHash, _) => leafHash
  | none => start

/-! ### The verifier as the specification words it (section 4.4) -/

/-- State of the specification's verifier: the running `currentHash` and the `ok` flag. -/
structure VerifyState where
  currentHash : Hash
  ok : Bool
deriving DecidableEq, Repr

/-- One level of the specification's state machine, steps 1 to 4 of section 4.4. -/
def specStep (hash : List Nat → Hash) (st : VerifyState) (step : Hash × Hash) : VerifyState :=
  let candidateA := hash (st.currentHash ++ step.1)
  if candidateA = step.2 then
    { st with currentHash := step.2 }
  else
    let candidateB := hash (step.1 ++ st.currentHash)
    if candidateB = step.2 then
      { st with currentHash := step.2 }
    else
      { currentHash := step.2, ok := false }

/-- The specification's `verify(claimedTxHash, recomputedTxHash, proof)`. -/
def specVerify (hash : List Nat → Hash) (claimedTxHash recomputedTxHash : Hash)
    (proof : MerkleProof) : Bool :=
  (proof.foldl (specStep hash)
    { currentHash := claimedTxHash, ok := decide (claimedTxHash = recomputedTxHash) }).ok

/-- A proof in which every level's expected parent is the hash of the running hash and the
sibling in one of the two orders, the running hash being `current` at the first level and
the previous level's expected parent afterwards. -/
def IsPath (hash : List Nat → Hash) : Hash → MerkleProof → Prop
  | _, [] => True
  | current, (sibling, expectedParent) :: rest =>
    (expectedParent = hash (current ++ sibling) ∨ expectedParent = hash (sibling ++ current))
      ∧ IsPath hash expectedParent rest

/-- A proof built by left-concatenation only: every expected parent is
`hash (current ++ sibling)`. -/
def IsLeftPath (hash : List Nat → Hash) : Hash → MerkleProof → Prop
  | _, [] => True
  | current, (sibling, expectedParent) :: rest =>
    expectedParent = hash (current ++ sibling) ∧ IsLeftPath hash expectedParent rest

/-- A 32-byte stand-in for the external hash, sensitive to the order of the two halves of a
64-byte input; it serves to evaluate the verifier on concrete proofs. -/
def sampleHash (bs : List Nat) : Hash :=
  (List.range 32).map (fun i => (bs.getD i 0 + 3 * bs.getD (i + 32) 0 + i) % 256)

/-- The leaf of the concrete scenario: 32 bytes `0xAA`. -/
def leafAA : Hash := List.replicate 32 0xAA

/-- The sibling of the concrete scenario: 32 bytes `0xBB`. -/
def siblingBB : Hash := List.replicate 32 0xBB

/-! ## Go library functions used by the endpoints -/

/-- The zero value of a `[n]byte` array. -/
def zeroBytes (n : Nat) : List Nat := List.replicate n 0

/-- Go built-in `copy(dst, src)` on byte slices: the first `min (len dst) (len src)` bytes of
`src` overwrite the front of `dst`; the result is the new content of `dst`. -/
def copyBytes (dst src : List Nat) : List Nat :=
  src.take dst.length ++ dst.drop src.length

/-- Loop of `natBytes`: emits the base-256 digits of `n`, most significant first. The first
argument bounds the number of iterations. -/
def natBytesAux : Nat → Nat → List Nat → List Nat
  | 0, _, acc => acc
  | fuel + 1, n, acc => if n = 0 then acc else natBytesAux fuel (n / 256) (n % 256 :: acc)

/-- Minimal big-endian bytes of a natural number (`0` gives the empty slice). The bound `n`
on the iterations is never reached, since `n / 256 < n` for `0 < n`. -/
def natBytes (n : Nat) : List Nat := natBytesAux n n []

/-- Go `(*big.Int).Bytes()`: the big-endian bytes of the absolute value. -/
def bigIntBytes (x : Int) : List Nat := natBytes x.natAbs

/-- Digit value of a character in base 16 as `big.nat.scan` reads it: `0-9`, `a-f`, `A-F`;
a letter whose value is 16 or more ends the number. -/
def hexDigitVal (c : Char) : Option Nat :=
  if 48 ≤ c.toNat ∧ c.toNat ≤ 57 then some (c.toNat - 48)
  else if 97 ≤ c.toNat ∧ c.toNat ≤ 102 then some (c.toNat - 97 + 10)
  else if 65 ≤ c.toNat ∧ c.toNat ≤ 70 then some (c.toNat - 65 + 10)
  else none

/-- Accumulates base-16 digits; `none` when a character is not a digit, so that the input is
not consumed entirely. -/
def scanHexDigits : List Char → Nat → Option Nat
  | [], acc => some acc
  | c :: cs, acc =>
    match hexDigitVal c with
    | none => none
    | some d => scanHexDigits cs (acc * 16 + d)

/-- Go `new(big.Int).SetString(s, 16)`: an optional sign, then one or more base-16 digits and
nothing else. `none` is the `nil` pointer returned on failure. -/
def SetString16 (s : String) : Option Int :=
  match s.data with
  | [] => none
  | c :: cs =>
    let neg := decide (c = '-')
    let digits := if c = '-' ∨ c = '+' then cs else c :: cs
    if digits = [] then none
    else
      match scanHexDigits digits 0 with
      | none => none
      | some n => some (if neg then -(n : Int) else (n : Int))

/-- Digit value of a decimal character. -/
def decDigitVal (c : Char) : Option Nat :=
  if 48 ≤ c.toNat ∧ c.toNat ≤ 57 then some (c.toNat - 48) else none

/-- Loop of Go `strconv.ParseUint(s, 10, 64)`: `none` is a syntax error; on overflow the loop
stops at once with the maximal value `2^64 - 1` (the range error). -/
def parseUintLoop : List Char → Nat → Option Nat
  | [], n => some n
  | c :: cs, n =>
    match decDigitVal c with
    | none => none
    | some d =>
      if n ≥ (2 ^ 64 - 1) / 10 + 1 then some (2 ^ 64 - 1)
      else if n * 10 + d > 2 ^ 64 - 1 then some (2 ^ 64 - 1)
      else parseUintLoop cs (n * 10 + d)

/-- Go `strconv.Atoi(s)` on a 64-bit platform with its error discarded (`v, _ := ...`): `0` on
a syntax error, the nearest `int64` bound on a range error. -/
def Atoi (s : String) : Int :=
  match s.data with
  | [] => 0
  | c :: cs =>
    let neg := decide (c = '-')
    let digits := if c = '-' ∨ c = '+' then cs else c :: cs
    if digits = [] then 0
    else
      match parseUintLoop digits 0 with
      | none => 0
      | some un =>
        if !neg ∧ un ≥ 2 ^ 63 then 2 ^ 63 - 1
        else if neg ∧ un > 2 ^ 63 then -(2 ^ 63)
        else if neg then -(un : Int) else (un : Int)

/-- Go conversion of an `int` to an unsigned type of `w` bits (`byte(x)`, `uint8(x)`,
`uint32(x)`, `uint64(x)`). -/
def toUint (w : Nat) (x : Int) : Nat := (x % (2 ^ w : Int)).toNat

/-! ## The transaction records of the external protocol library -/

/-- Modelled from the spec: `protocol.ContractTx`, declared in the external protocol library;
the fields are those the endpoints and `assignTransactionToShard` use. -/
structure ContractTx where
  Header : Nat
  Issuer : List Nat
  Fee : Nat
  PubKey : List Nat
  Sig : List Nat
deriving DecidableEq, Repr

/-- Modelled from the spec: `protocol.ConfigTx`, declared in the external protocol library. -/
structure ConfigTx where
  Header : Nat
  Id : Nat
  Payload : Nat
  Fee : Nat
  TxCnt : Nat
  Sig : List Nat
deriving DecidableEq, Repr

/-- Modelled from the spec: `protocol.FundsTx`, declared in the external protocol library. -/
structure FundsTx where
  Header : Nat
  Amount : Nat
  Fee : Nat
  TxCnt : Nat
  From : List Nat
  To : List Nat
  Sig : List Nat
deriving DecidableEq, Repr

/-- The interface `protocol.Transaction` restricted to the three kinds staged here. -/
inductive Transaction where
  | contract (tx : ContractTx)
  | config (tx : ConfigTx)
  | funds (tx : FundsTx)
deriving DecidableEq, Repr

/-- The three values of `txType` that `sendTxEndpoint` is called with (constants of the
external `p2p` package). -/
inductive TxType where
  | ACCTX_BRDCST
  | CONFIGTX_BRDCST
  | FUNDSTX_BRDCST
deriving DecidableEq, Repr

/-- The hash functions `tx.Hash()` of the three record types, owned by the protocol library. -/
structure TxHashing where
  contractHash : ContractTx → Hash
  configHash : ConfigTx → Hash
  fundsHash : FundsTx → Hash

/-! ## The pending registries -/

/-- A Go map from `[32]byte` to a record pointer; `none` is the `nil` a lookup of a missing key
returns. Every stored pointer is to a record allocated by one create call and stored under
one key, so a write through the pointer changes that one entry. -/
abbrev TxMap (α : Type) := Hash → Option α

/-- The empty map. -/
def TxMap.empty {α : Type} : TxMap α := fun _ => none

/-- Go `m[key] = value`. -/
def TxMap.put {α : Type} (m : TxMap α) (key : Hash) (value : α) : TxMap α :=
  fun k => if k = key then some value else m k

/-- Go `delete(m, key)`. -/
def TxMap.delete {α : Type} (m : TxMap α) (key : Hash) : TxMap α :=
  fun k => if k = key then none else m k

/-- The package-level maps `client.UnsignedContractTx`, `client.UnsignedConfigTx` and
`client.UnsignedFundsTx`. -/
structure Registries where
  UnsignedContractTx : TxMap ContractTx
  UnsignedConfigTx : TxMap ConfigTx
  UnsignedFundsTx : TxMap FundsTx

/-- Whether `txHash` is staged in the registry of the kind `txType`. -/
def Registries.staged (st : Registries) : TxType → Hash → Bool
  | TxType.ACCTX_BRDCST, txHash => (st.UnsignedContractTx txHash).isSome
  | TxType.CONFIGTX_BRDCST, txHash => (st.UnsignedConfigTx txHash).isSome
  | TxType.FUNDSTX_BRDCST, txHash => (st.UnsignedFundsTx txHash).isSome

/-- The record staged under `txHash` in the registry of the kind `txType`, if any. -/
def Registries.get (st : Registries) : TxType → Hash → Option Transaction
  | TxType.ACCTX_BRDCST, txHash => (st.UnsignedContractTx txHash).map Transaction.contract
  | TxType.CONFIGTX_BRDCST, txHash => (st.UnsignedConfigTx txHash).map Transaction.config
  | TxType.FUNDSTX_BRDCST, txHash => (st.UnsignedFundsTx txHash).map Transaction.funds

/-- The record with its signature field set, every other field as it was. -/
def Transaction.withSig : Transaction → List Nat → Transaction
  | Transaction.contract tx, sig => Transaction.contract { tx with Sig := sig }
  | Transaction.config tx, sig => Transaction.config { tx with Sig := sig }
  | Transaction.funds tx, sig => Transaction.funds { tx with Sig := sig }

/-! ## REST/EPTransaction.go -/

/-- Go `Content`. -/
structure Content where
  Name : String
  Detail : String
deriving DecidableEq, Repr

/-- Go `JsonResponse`. -/
structure JsonResponse where
  Code : Nat
  Message : String
  Content : List Content
deriving DecidableEq, Repr

/-- Go `http.StatusOK`. -/
def StatusOK : Nat := 200

/-- Go `http.StatusInternalServerError`. -/
def StatusInternalServerError : Nat := 500

/-- The key pair `ecdsa.GenerateKey(elliptic.P256(), rand.Reader)` produced. -/
structure EcdsaKey where
  X : Nat
  Y : Nat
  D : Nat
deriving DecidableEq, Repr

/-- Route variables of `CreateContractTxEndpoint`. -/
structure ContractParams where
  header : String
  fee : String
  issuer : String

/-- The record `tx` that `CreateContractTxEndpoint` has built when it calls `tx.Hash()`:
header and fee from the route, the issuer copied from `issuerInt.Bytes()`, the two halves of
the public key copied from `X.Bytes()` and `Y.Bytes()` of the fresh key. -/
def newContractTx (params : ContractParams) (issuerInt : Int) (newAccAddress : EcdsaKey) :
    ContractTx :=
  let header := Atoi params.header
  let fee := Atoi params.fee
  let tx : ContractTx :=
    { Header := toUint 8 header, Fee := toUint 64 fee,
      Issuer := zeroBytes 64, PubKey := zeroBytes 64, Sig := zeroBytes 64 }
  let tx := { tx with Issuer := copyBytes tx.Issuer (bigIntBytes issuerInt) }
  let pubKeyX := copyBytes (tx.PubKey.take 32) (natBytes newAccAddress.X)
  let tx := { tx with PubKey := pubKeyX ++ tx.PubKey.drop 32 }
  let pubKeyY := copyBytes (tx.PubKey.drop 32) (natBytes newAccAddress.Y)
  { tx with PubKey := tx.PubKey.take 32 ++ pubKeyY }

/-- Go `CreateContractTxEndpoint`. `newAccAddress` is the key `ecdsa.GenerateKey` returned.
`none`: the call panicked in `issuerInt.Bytes()` on the `nil` that `SetString` returned,
before anything was staged or written. -/
def CreateContractTxEndpoint (H : TxHashing) (newAccAddress : EcdsaKey) (st : Registries)
    (params : ContractParams) : Option (Registries × JsonResponse) :=
  match SetString16 params.issuer with
  | none => none
  | some issuerInt =>
    let tx := newContractTx params issuerInt newAccAddress
    let txHash := H.contractHash tx
    let st := { st with UnsignedContractTx := st.UnsignedContractTx.put txHash tx }
    let content :=
      [ Content.mk "PubKey1" (hexEncode (tx.PubKey.take 32)),
        Content.mk "PubKey2" (hexEncode (tx.PubKey.drop 32)),
        Content.mk "PrivKey" (hexEncode (natBytes newAccAddress.D)),
        Content.mk "TxHash" (hexEncode txHash) ]
    some (st, JsonResponse.mk StatusOK "ContractTx successfully created." content)

/-- Route variables of `CreateContractTxEndpointWithPubKey`. -/
structure ContractPubKeyParams where
  header : String
  fee : String
  pubKey : String
  issuer : String

/-- The record `tx` that `CreateContractTxEndpointWithPubKey` has built when it calls
`tx.Hash()`. -/
def newContractTxWithPubKey (params : ContractPubKeyParams) (fromPubInt issuerInt : Int) :
    ContractTx :=
  let header := Atoi params.header
  let fee := Atoi params.fee
  let tx : ContractTx :=
    { Header := toUint 8 header, Fee := toUint 64 fee,
      Issuer := zeroBytes 64, PubKey := zeroBytes 64, Sig := zeroBytes 64 }
  let tx := { tx with PubKey := copyBytes tx.PubKey (bigIntBytes fromPubInt) }
  { tx with Issuer := copyBytes tx.Issuer (bigIntBytes issuerInt) }

/-- Go `CreateContractTxEndpointWithPubKey`. `none`: a panic in `Bytes()` on a `nil`. -/
def CreateContractTxEndpointWithPubKey (H : TxHashing) (st : Registries)
    (params : ContractPubKeyParams) : Option (Registries × JsonResponse) :=
  match SetString16 params.pubKey with
  | none => none
  | some fromPubInt =>
    match SetString16 params.issuer with
    | none => none
    | some issuerInt =>
      let tx := newContractTxWithPubKey params fromPubInt issuerInt
      let txHash := H.contractHash tx
      let st := { st with UnsignedContractTx := st.UnsignedContractTx.put txHash tx }
      let content := [Content.mk "TxHash" (hexEncode txHash)]
      some (st, JsonResponse.mk StatusOK "ContractTx successfully created." content)

/-- Route variables of `CreateConfigTxEndpoint`. -/
structure ConfigParams where
  header : String
  id : String
  payload : String
  fee : String
  txCnt : String

/-- The record `tx` that `CreateConfigTxEndpoint` builds. -/
def newConfigTx (params : ConfigParams) : ConfigTx :=
  let header := Atoi params.header
  let id := Atoi params.id
  let payload := Atoi params.payload
  let fee := Atoi params.fee
  let txCnt := Atoi params.txCnt
  { Header := toUint 8 header, Id := toUint 8 id, Payload := toUint 64 payload,
    Fee := toUint 64 fee, TxCnt := toUint 8 txCnt, Sig := zeroBytes 64 }

/-- Go `CreateConfigTxEndpoint`; it has no step that can panic. -/
def CreateConfigTxEndpoint (H : TxHashing) (st : Registries)
    (params : ConfigParams) : Option (Registries × JsonResponse) :=
  let tx := newConfigTx params
  let txHash := H.configHash tx
  let st := { st with UnsignedConfigTx := st.UnsignedConfigTx.put txHash tx }
  let content := [Content.mk "TxHash" (hexEncode txHash)]
  some (st, JsonResponse.mk StatusOK "ConfigTx successfully created." content)

/-- Route variables of `CreateFundsTxEndpoint`. -/
structure FundsParams where
  header : String
  amount : String
  fee : String
  txCnt : String
  fromPub : String
  toPub : String

/-- The record `tx` that `CreateFundsTxEndpoint` builds. -/
def newFundsTx (params : FundsParams) (fromPubInt toPubInt : Int) : FundsTx :=
  let fromPub := zeroBytes 64
  let toPub := zeroBytes 64
  let header := Atoi params.header
  let amount := Atoi params.amount
  let fee := Atoi params.fee
  let txCnt := Atoi params.txCnt
  let fromPub := copyBytes fromPub (bigIntBytes fromPubInt)
  let toPub := copyBytes toPub (bigIntBytes toPubInt)
  { Header := toUint 8 header, Amount := toUint 64 amount, Fee := toUint 64 fee,
    TxCnt := toUint 32 txCnt, From := fromPub, To := toPub, Sig := zeroBytes 64 }

/-- Go `CreateFundsTxEndpoint`. `none`: a panic in `Bytes()` on a `nil`. -/
def CreateFundsTxEndpoint (H : TxHashing) (st : Registries)
    (params : FundsParams) : Option (Registries × JsonResponse) :=
  match SetString16 params.fromPub with
  | none => none
  | some fromPubInt =>
    match SetString16 params.toPub with
    | none => none
    | some toPubInt =>
      let tx := newFundsTx params fromPubInt toPubInt
      let txHash := H.fundsHash tx
      let st := { st with UnsignedFundsTx := st.UnsignedFundsTx.put txHash tx }
      let content := [Content.mk "TxHash" (hexEncode txHash)]
      some (st, JsonResponse.mk StatusOK "FundsTx successfully created." content)

/-- Route variables of the three send endpoints. -/
structure SendParams where
  txHash : String
  txSign : String

/-- What one run of `sendTxEndpoint` leaves behind: the registries, the response written, and
the calls made to `network.SendTx` in order. -/
structure SendOutcome where
  state : Registries
  response : JsonResponse
  sent : List (Transaction × TxType)

/-- The response of `sendTxEndpoint` when no record is staged under `txHash`. -/
def notFoundResponse (txHash : Hash) : JsonResponse :=
  JsonResponse.mk StatusInternalServerError
    ("No transaction with hash " ++ hexEncode txHash ++ " found to sign") []

/-- The closing `if err == nil` of `sendTxEndpoint`; `err` is the error of `network.SendTx`,
`none` for `nil`, otherwise its message. -/
def sendResponse (err : Option String) (txHash : Hash) : JsonResponse :=
  match err with
  | none =>
    JsonResponse.mk StatusOK
      ("Transaction " ++ hexEncode (txHash.take 8) ++ " successfully sent to network.") []
  | some msg => JsonResponse.mk StatusInternalServerError msg []

/-- The decoding of a hex route variable into a fixed-size array, as `sendTxEndpoint` does for
`txHash` (`n = 32`) and `txSign` (`n = 64`): `SetString(s, 16)`, `Bytes()`, `copy` to the
front of the zeroed array. `none`: `Bytes()` was called on `nil`. -/
def decodeHexParam (n : Nat) (s : String) : Option (List Nat) :=
  match SetString16 s with
  | none => none
  | some x => some (copyBytes (zeroBytes n) (bigIntBytes x))

/-- Go `sendTxEndpoint(w, req, txType)`. `SendTx` stands for `network.SendTx` with the
configured bootstrap address. `tx.Sig = txSign` writes through the stored pointer, so the
registry entry itself carries the signature from then on. -/
def sendTxEndpoint (SendTx : Transaction → TxType → Option String) (st : Registries)
    (params : SendParams) (txType : TxType) : Option SendOutcome :=
  match decodeHexParam 32 params.txHash with
  | none => none
  | some txHash =>
    match decodeHexParam 64 params.txSign with
    | none => none
    | some txSign =>
      match txType with
      | TxType.ACCTX_BRDCST =>
        match st.UnsignedContractTx txHash with
        | some tx =>
          let tx := { tx with Sig := txSign }
          let st := { st with UnsignedContractTx := st.UnsignedContractTx.put txHash tx }
          let err := SendTx (Transaction.contract tx) TxType.ACCTX_BRDCST
          let st := { st with UnsignedFundsTx := st.UnsignedFundsTx.delete txHash }
          some ⟨st, sendResponse err txHash, [(Transaction.contract tx, TxType.ACCTX_BRDCST)]⟩
        | none => some ⟨st, notFoundResponse txHash, []⟩
      | TxType.CONFIGTX_BRDCST =>
        match st.UnsignedConfigTx txHash with
        | some tx =>
          let tx := { tx with Sig := txSign }
          let st := { st with UnsignedConfigTx := st.UnsignedConfigTx.put txHash tx }
          let err := SendTx (Transaction.config tx) TxType.CONFIGTX_BRDCST
          let st := { st with UnsignedFundsTx := st.UnsignedFundsTx.delete txHash }
          some ⟨st, sendResponse err txHash, [(Transaction.config tx, TxType.CONFIGTX_BRDCST)]⟩
        | none => some ⟨st, notFoundResponse txHash, []⟩
      | TxType.FUNDSTX_BRDCST =>
        match st.UnsignedFundsTx txHash with
        | some tx =>
          let tx := { tx with Sig := txSign }
          let st := { st with UnsignedFundsTx := st.UnsignedFundsTx.put txHash tx }
          let err := SendTx (Transaction.funds tx) TxType.FUNDSTX_BRDCST
          let st := { st with UnsignedFundsTx := st.UnsignedFundsTx.delete txHash }
          some ⟨st, sendResponse err txHash, [(Transaction.funds tx, TxType.FUNDSTX_BRDCST)]⟩
        | none => some ⟨st, notFoundResponse txHash, []⟩

/-! ## Notions used to state the properties -/

/-- The named string field of a response, if present. -/
def JsonResponse.field (r : JsonResponse) (name : String) : Option String :=
  (r.Content.find? (fun c => c.Name == name)).map Content.Detail

/-- The registries `st2` are `st1` with `tx` stored under `txHash` in the registry of the kind
`txType`, every other key of that registry and both other registries being as in `st1`. -/
def StagedOver (st1 st2 : Registries) (txType : TxType) (txHash : Hash)
    (tx : Transaction) : Prop :=
  st2.get txType txHash = some tx ∧
  ∀ (otherType : TxType) (key : Hash),
    (otherType ≠ txType ∨ key ≠ txHash) → st2.get otherType key = st1.get otherType key

/-- No record is staged anywhere. -/
def Registries.empty : Registries :=
  { UnsignedContractTx := TxMap.empty, UnsignedConfigTx := TxMap.empty,
    UnsignedFundsTx := TxMap.empty }

/-- A transport that accepts every transaction. -/
def sendOk : Transaction → TxType → Option String := fun _ _ => none

/-- A transport that fails every time. -/
def sendFails : Transaction → TxType → Option String := fun _ _ => some "connection refused"

/-- A 32-byte hash, `0x11` repeated. -/
def hash11 : Hash := List.replicate 32 0x11

/-- A 64-byte signature, `0x22` repeated. -/
def sig22 : List Nat := List.replicate 64 0x22

/-- A 32-byte hash whose first byte is zero: `0x00` followed by 31 bytes `0x01`. -/
def hash00 : Hash := 0 :: List.replicate 31 1

/-- A contract record with zeroed arrays. -/
def sampleContractTx : ContractTx :=
  { Header := 0, Issuer := zeroBytes 64, Fee := 1, PubKey := zeroBytes 64, Sig := zeroBytes 64 }

/-- A config record. -/
def sampleConfigTx : ConfigTx :=
  { Header := 0, Id := 1, Payload := 5, Fee := 1, TxCnt := 0, Sig := zeroBytes 64 }

/-- A funds record with zeroed arrays. -/
def sampleFundsTx : FundsTx :=
  { Header := 0, Amount := 10, Fee := 1, TxCnt := 0, From := zeroBytes 64, To := zeroBytes 64,
    Sig := zeroBytes 64 }

/-- Hash functions that send every record to the same given hash. -/
def constHashing (h : Hash) : TxHashing :=
  { contractHash := fun _ => h, configHash := fun _ => h, fundsHash := fun _ => h }

/-- Route variables of a funds creation with two well-formed keys. -/
def sampleFundsParams : FundsParams :=
  { header := "0", amount := "10", fee := "1", txCnt := "0", fromPub := "0a", toPub := "0b" }

/-- Registries with `sampleContractTx` staged under `hash11` and nothing else. -/
def stagedContract : Registries :=
  { Registries.empty with UnsignedContractTx := TxMap.empty.put hash11 sampleContractTx }

/-- Registries with `sampleConfigTx` staged under `hash11` and nothing else. -/
def stagedConfig : Registries :=
  { Registries.empty with UnsignedConfigTx := TxMap.empty.put hash11 sampleConfigTx }

/-- Registries with `sampleFundsTx` staged under `hash11` and nothing else. -/
def stagedFunds : Registries :=
  { Registries.empty with UnsignedFundsTx := TxMap.empty.put hash11 sampleFundsTx }

/-- Route variables of a send request for `hash11` signed with `sig22`. -/
def sendParams11 : SendParams :=
  { txHash := hexEncode hash11, txSign := hexEncode sig22 }

/-- The outcome `out` of a create endpoint is a completed call that left `tx` staged under
`txHash` in the registry of `txType`, everything else in the registries being as in `st`,
and answered with status 200 and the field `TxHash` holding `txHash` in hex. -/
def CreatedAs (out : Option (Registries × JsonResponse)) (st : Registries) (txType : TxType)
    (txHash : Hash) (tx : Transaction) : Prop :=
  ∃ st2 resp, out = some (st2, resp) ∧ StagedOver st st2 txType txHash tx ∧
    resp.Code = 200 ∧ resp.field "TxHash" = some (hexEncode txHash)

/-- A key pair with small coordinates. -/
def sampleKey : EcdsaKey := { X := 258, Y := 3, D := 7 }

/-- The hash function does not collide on the two inputs `x` and `y`. -/
def NoCollision (hash : List Nat → Hash) (x y : List Nat) : Prop :=
  hash x = hash y → x = y

/-- The leaf and every sibling and expected parent of the proof are 32 bytes long, as the
type `[32]byte` has it. -/
def HashSized (leaf : Hash) (proof : MerkleProof) : Prop :=
  leaf.length = 32 ∧ ∀ step ∈ proof, step.1.length = 32 ∧ step.2.length = 32

/-- A hash function with collisions: it keeps the first 32 bytes of its input. -/
def firstHalfHash (bs : List Nat) : Hash := bs.take 32

/-- A sibling that differs from `leafAA` in its last byte only: 31 bytes `0xAA`, then
`0xAB`. -/
def siblingAB : Hash := List.replicate 31 0xAA ++ [0xAB]

/-- The number a byte string denotes when read big-endian. -/
def beValue (bs : List Nat) : Nat :=
  bs.foldl (fun acc b => acc * 256 + b) 0

/-! ## cli/funds.go -/

/-- Go `fundsArgs`. The fields `amount` and `fee` are `uint64`, naturals below `2^64`;
`header` and `txcount` are `int`. -/
structure fundsArgs where
  header : Int
  fromWalletFile : String
  toWalletFile : String
  toAddress : String
  amount : Nat
  fee : Nat
  txcount : Int
deriving DecidableEq, Repr

/-- Go `len(s)` of a string: its length in bytes. -/
def strLen (s : String) : Nat := s.utf8ByteSize

/-- Go `(args fundsArgs) ValidateInput()`. The comparisons `args.fee < 0` and
`args.amount <= 0` are between unsigned values. -/
def fundsArgs.ValidateInput (args : fundsArgs) : GoError :=
  if strLen args.fromWalletFile = 0 then
    GoError.error "argument missing: from"
  else if args.txcount < 0 then
    GoError.error "invalid argument: txcnt must be >= 0"
  else if strLen args.toWalletFile = 0 ∧ strLen args.toAddress = 0 then
    GoError.error "argument missing: to or toAddess"
  else if strLen args.toWalletFile = 0 ∧ strLen args.toAddress ≠ 128 then
    GoError.error "invalid argument: toAddress"
  else if args.fee < 0 then
    GoError.error "invalid argument: fee must be > 0"
  else if args.amount ≤ 0 then
    GoError.error "invalid argument: amount must be > 0"
  else
    GoError.nil

/-- Arguments of a transfer of 5 coins between two wallet files with a fee of zero. -/
def zeroFeeArgs : fundsArgs :=
  { header := 0, fromWalletFile := "alice.key", toWalletFile := "bob.key", toAddress := "",
    amount := 5, fee := 0, txcount := 0 }

/-- What the dispatcher decodes from the hex form of `hash00`: the 31 bytes `0x01` moved to
the front, then a zero byte. -/
def shiftedHash00 : Hash := List.replicate 31 1 ++ [0]

/-- A 64-byte signature whose first byte is zero: `0x00` followed by 63 bytes `0x22`. -/
def sig00 : List Nat := 0 :: List.replicate 63 0x22

/-- Registries with `sampleFundsTx` staged under `hash00` and nothing else. -/
def stagedFunds00 : Registries :=
  { Registries.empty with UnsignedFundsTx := TxMap.empty.put hash00 sampleFundsTx }

/-- Registries with `sampleFundsTx` staged under `shiftedHash00` and nothing else; `hash00`
is not staged. -/
def stagedFundsShifted : Registries :=
  { Registries.empty with UnsignedFundsTx := TxMap.empty.put shiftedHash00 sampleFundsTx }

set_option maxRecDepth 8192

/-! ## Theorems: Merkle verifier -/

theorem validateLoop_false (hash : List Nat → Hash) (proof : MerkleProof) (cur : Hash) :
    ∃ c, validateLoop hash (proofNodes proof) cur false = some (c, false) := by
  induction proof generalizing cur with
  | nil => exact ⟨cur, rfl⟩
  | cons step rest ih =>
    obtain ⟨s, p⟩ := step
    simp only [proofNodes, validateLoop]
    split_ifs <;> exact ih _

theorem specStep_fold_false (hash : List Nat → Hash) (proof : MerkleProof) (cur : Hash) :
    (proof.foldl (specStep hash) { currentHash := cur, ok := false }).ok = false := by
  induction proof generalizing cur with
  | nil => rfl
  | cons step rest ih =>
    obtain ⟨s, p⟩ := step
    simp only [List.foldl_cons, specStep]
    split_ifs <;> exact ih _

theorem validateLoop_ok_eq_spec (hash : List Nat → Hash) (proof : MerkleProof) (cur : Hash)
    (valid : Bool) :
    ∃ c, validateLoop hash (proofNodes proof) cur valid
      = some (c, (proof.foldl (specStep hash) { currentHash := cur, ok := valid }).ok) := by
  induction proof generalizing cur valid with
  | nil => exact ⟨cur, rfl⟩
  | cons step rest ih =>
    obtain ⟨s, p⟩ := step
    simp only [proofNodes, validateLoop, List.foldl_cons, specStep]
    by_cases hA : hash (cur ++ s) = p
    · simp only [hA, ne_eq, not_true_eq_false, if_false, if_true]
      exact ih p valid
    · by_cases hB : hash (s ++ cur) = p
      · simp only [hA, hB, ne_eq, not_false_eq_true, not_true_eq_false, if_false, if_true]
        exact ih p valid
      · simp only [hA, hB, ne_eq, not_false_eq_true, if_false, if_true]
        rw [specStep_fold_false]
        exact validateLoop_false hash rest _

theorem validateLoop_fst (hash : List Nat → Hash) (proof : MerkleProof) (cur : Hash)
    (valid : Bool) :
    (validateLoop hash (proofNodes proof) cur valid).map Prod.fst
      = (validateLoop hash (proofNodes proof) cur true).map Prod.fst := by
  induction proof generalizing cur valid with
  | nil => rfl
  | cons step rest ih =>
    obtain ⟨s, p⟩ := step
    simp only [proofNodes, validateLoop]
    split_ifs <;> first | rfl | exact ih _ _

/-- The loop never panics on the node list of a proof; it ends with the running hash
`leafHashAfter` and the flag of the specification's state machine. -/
theorem validateLoop_proofNodes (hash : List Nat → Hash) (proof : MerkleProof) (cur : Hash)
    (valid : Bool) :
    validateLoop hash (proofNodes proof) cur valid
      = some (leafHashAfter hash cur proof,
          (proof.foldl (specStep hash) { currentHash := cur, ok := valid }).ok) := by
  obtain ⟨c, hc⟩ := validateLoop_ok_eq_spec hash proof cur valid
  have hfst := validateLoop_fst hash proof cur valid
  rw [hc] at hfst
  unfold leafHashAfter
  cases hrun : validateLoop hash (proofNodes proof) cur true with
  | none => rw [hrun] at hfst; simp at hfst
  | some r =>
    rw [hrun] at hfst
    simp only [Option.map_some', Option.some.injEq] at hfst
    rw [hc, hfst]

theorem validateTx_eq (hash : List Nat → Hash) (proof : MerkleProof) (recomputed claimed : Hash) :
    validateTx hash (proofNodes proof) recomputed claimed
      = if specVerify hash claimed recomputed proof = true then GoError.nil
        else GoError.error (validationFailed claimed) := by
  unfold validateTx specVerify
  simp only [validateLoop_proofNodes, validationFailed]
  by_cases h : claimed = recomputed
  · cases hx : (List.foldl (specStep hash) { currentHash := claimed, ok := true } proof).ok <;>
      simp [h, hx] <;> simp [← h, hx]
  · simp [h, specStep_fold_false]

theorem leafHashAfter_nil (hash : List Nat → Hash) (cur : Hash) :
    leafHashAfter hash cur [] = cur := rfl

theorem leafHashAfter_cons (hash : List Nat → Hash) (cur s p : Hash) (rest : MerkleProof) :
    leafHashAfter hash cur ((s, p) :: rest)
      = leafHashAfter hash (if hash (cur ++ s) = p then p else hash (s ++ cur)) rest := by
  have h1 := validateLoop_proofNodes hash ((s, p) :: rest) cur true
  simp only [proofNodes, validateLoop] at h1
  by_cases hA : hash (cur ++ s) = p
  · simp only [hA, ne_eq, not_true_eq_false, if_false, if_true] at h1 ⊢
    rw [validateLoop_proofNodes] at h1
    simp only [Option.some.injEq, Prod.mk.injEq] at h1
    exact h1.1.symm
  · by_cases hB : hash (s ++ cur) = p
    · simp only [hA, hB, ne_eq, not_false_eq_true, not_true_eq_false, if_false, if_true] at h1 ⊢
      rw [validateLoop_proofNodes] at h1
      simp only [Option.some.injEq, Prod.mk.injEq] at h1
      exact h1.1.symm
    · simp only [hA, hB, ne_eq, not_false_eq_true, if_false, if_true] at h1 ⊢
      rw [validateLoop_proofNodes] at h1
      simp only [Option.some.injEq, Prod.mk.injEq] at h1
      exact h1.1.symm

theorem leafHashAfter_append (hash : List Nat → Hash) (cur : Hash) (pre post : MerkleProof) :
    leafHashAfter hash cur (pre ++ post)
      = leafHashAfter hash (leafHashAfter hash cur pre) post := by
  induction pre generalizing cur with
  | nil => rfl
  | cons step rest ih =>
    obtain ⟨s, p⟩ := step
    simp only [List.cons_append, leafHashAfter_cons]
    exact ih _

theorem specStep_fold_ok_cons (hash : List Nat → Hash) (cur s p : Hash) (rest : MerkleProof) (v : Bool) :
    (((s, p) :: rest).foldl (specStep hash) { currentHash := cur, ok := v }).ok
      = ((decide (hash (cur ++ s) = p ∨ hash (s ++ cur) = p)) &&
          (rest.foldl (specStep hash) { currentHash := p, ok := v }).ok) := by
  simp only [List.foldl_cons, specStep]
  by_cases hA : hash (cur ++ s) = p
  · simp [hA]
  · by_cases hB : hash (s ++ cur) = p
    · simp [hA, hB]
    · simp [hA, hB, specStep_fold_false]


theorem specStep_fold_currentHash (hash : List Nat → Hash) (proof : MerkleProof) (cur : Hash)
    (v : Bool)
    (hok : (proof.foldl (specStep hash) { currentHash := cur, ok := v }).ok = true) :
    (proof.foldl (specStep hash) { currentHash := cur, ok := v }).currentHash
      = leafHashAfter hash cur proof := by
  induction proof generalizing cur v with
  | nil => rfl
  | cons step rest ih =>
    obtain ⟨s, p⟩ := step
    rw [leafHashAfter_cons]
    simp only [List.foldl_cons, specStep] at hok ⊢
    by_cases hA : hash (cur ++ s) = p
    · simp only [hA, if_true] at hok ⊢
      exact ih p v hok
    · by_cases hB : hash (s ++ cur) = p
      · simp only [hA, hB, if_false, if_true] at hok ⊢
        exact ih p v hok
      · simp only [hA, hB, if_false] at hok
        rw [specStep_fold_false] at hok
        exact absurd hok (by decide)

theorem specStep_fold_ok_false (hash : List Nat → Hash) (proof : MerkleProof) (st : VerifyState)
    (hst : st.ok = false) : (proof.foldl (specStep hash) st).ok = false := by
  obtain ⟨c, b⟩ := st
  simp only at hst
  subst hst
  exact specStep_fold_false hash proof c

theorem specVerify_of_isPath (hash : List Nat → Hash) (cur : Hash) (proof : MerkleProof)
    (hPath : IsPath hash cur proof) :
    (proof.foldl (specStep hash) { currentHash := cur, ok := true }).ok = true := by
  induction proof generalizing cur with
  | nil => rfl
  | cons step rest ih =>
    obtain ⟨s, p⟩ := step
    obtain ⟨hstep, hrest⟩ := hPath
    rw [specStep_fold_ok_cons, ih p hrest]
    rcases hstep with h | h <;> simp [h]

theorem isPath_of_isLeftPath (hash : List Nat → Hash) (cur : Hash) (proof : MerkleProof)
    (hPath : IsLeftPath hash cur proof) : IsPath hash cur proof := by
  induction proof generalizing cur with
  | nil => trivial
  | cons step rest ih =>
    obtain ⟨s, p⟩ := step
    exact ⟨Or.inl hPath.1, ih p hPath.2⟩

theorem specVerify_reject_level (hash : List Nat → Hash) (claimed recomputed : Hash)
    (pre post : MerkleProof) (s p : Hash)
    (hA : hash (leafHashAfter hash claimed pre ++ s) ≠ p)
    (hB : hash (s ++ leafHashAfter hash claimed pre) ≠ p) :
    specVerify hash claimed recomputed (pre ++ (s, p) :: post) = false := by
  unfold specVerify
  rw [List.foldl_append]
  cases hok : (pre.foldl (specStep hash)
      { currentHash := claimed, ok := decide (claimed = recomputed) }).ok with
  | false => exact specStep_fold_ok_false hash _ _ hok
  | true =>
    have hcur := specStep_fold_currentHash hash pre claimed _ hok
    simp only [List.foldl_cons]
    apply specStep_fold_ok_false
    simp only [specStep, hcur, hA, hB, if_false]

theorem specVerify_extend_rejected (hash : List Nat → Hash) (claimed recomputed : Hash)
    (pre ext : MerkleProof) (h : specVerify hash claimed recomputed pre = false) :
    specVerify hash claimed recomputed (pre ++ ext) = false := by
  unfold specVerify at h ⊢
  rw [List.foldl_append]
  exact specStep_fold_ok_false hash _ _ h

/-- C3: the verdict of `validateTx` on the node list of a proof is `nil` exactly when the
state machine of section 4.4 of the specification ends with `ok = true`. -/
theorem validateTx_refines_spec (hash : List Nat → Hash) (claimedTxHash recomputedTxHash : Hash)
    (proof : MerkleProof) :
    validateTx hash (proofNodes proof) recomputedTxHash claimedTxHash = GoError.nil
      ↔ specVerify hash claimedTxHash recomputedTxHash proof = true := by
  rw [validateTx_eq]
  by_cases h : specVerify hash claimedTxHash recomputedTxHash proof = true
  · rw [if_pos h]
    exact ⟨fun _ => h, fun _ => rfl⟩
  · rw [if_neg h]
    exact ⟨fun hc => (by cases hc), fun hc => absurd hc h⟩

/-- C4: when the claimed hash equals the recomputed one and every level's expected parent is
the hash of the running hash and the sibling in either order, `validateTx` returns `nil`; in
particular for a proof built by left-concatenation only. -/
theorem validateTx_complete (hash : List Nat → Hash) (leaf recomputed : Hash)
    (proof : MerkleProof) (hEq : leaf = recomputed) :
    (IsPath hash leaf proof →
      validateTx hash (proofNodes proof) recomputed leaf = GoError.nil) ∧
    (IsLeftPath hash leaf proof →
      validateTx hash (proofNodes proof) recomputed leaf = GoError.nil) := by
  have main : IsPath hash leaf proof →
      validateTx hash (proofNodes proof) recomputed leaf = GoError.nil := by
    intro hPath
    rw [validateTx_eq]
    have : specVerify hash leaf recomputed proof = true := by
      unfold specVerify
      simp only [hEq, decide_True]
      exact specVerify_of_isPath hash recomputed proof (hEq ▸ hPath)
    simp [this]
  exact ⟨main, fun h => main (isPath_of_isLeftPath hash leaf proof h)⟩

/-- Witness of C4 on the concrete scenario: leaf 32 bytes `0xAA`, sibling 32 bytes `0xBB`,
parent the hash of leaf followed by sibling. -/
theorem validateTx_complete_witness :
    validateTx sampleHash (proofNodes [(siblingBB, sampleHash (leafAA ++ siblingBB))])
        leafAA leafAA = GoError.nil ∧
    validateTx sampleHash
        (proofNodes [(siblingBB, sampleHash (leafAA ++ siblingBB)),
          (siblingBB, sampleHash (siblingBB ++ sampleHash (leafAA ++ siblingBB)))])
        leafAA leafAA = GoError.nil :=
  ⟨(validateTx_complete sampleHash leafAA leafAA _ rfl).2 ⟨rfl, trivial⟩,
   (validateTx_complete sampleHash leafAA leafAA _ rfl).1
     ⟨Or.inl rfl, Or.inr rfl, trivial⟩⟩

theorem validateLoop_odd (hash : List Nat → Hash) (n : Nat) :
    ∀ (nodes : List Hash) (cur : Hash) (valid : Bool), nodes.length = 2 * n + 1 →
      validateLoop hash nodes cur valid = none := by
  induction n with
  | zero =>
    intro nodes cur valid hlen
    match nodes, hlen with
    | [_], _ => rfl
  | succ n ih =>
    intro nodes cur valid hlen
    match nodes, hlen with
    | a :: b :: rest, hlen =>
      have hrest : rest.length = 2 * n + 1 := by
        simp only [List.length_cons] at hlen
        omega
      simp only [validateLoop]
      split_ifs <;> exact ih rest _ _ hrest

/-- On a node list with an odd number of entries `validateTx` ends in the index panic at
`nodes[i+1]`, whatever the hashes are. -/
theorem validateTx_odd_panics (hash : List Nat → Hash) (nodes : List Hash)
    (recomputed claimed : Hash) (hodd : nodes.length % 2 = 1) :
    validateTx hash nodes recomputed claimed = GoError.panic := by
  have hlen : nodes.length = 2 * (nodes.length / 2) + 1 := by omega
  unfold validateTx
  simp only [validateLoop_odd hash (nodes.length / 2) nodes _ _ hlen]

/-- Every node list with an even number of entries is the node list of a proof. -/
theorem even_nodes_eq_proofNodes (n : Nat) :
    ∀ (nodes : List Hash), nodes.length = 2 * n → ∃ proof, nodes = proofNodes proof := by
  induction n with
  | zero =>
    intro nodes hlen
    match nodes, hlen with
    | [], _ => exact ⟨[], rfl⟩
  | succ n ih =>
    intro nodes hlen
    match nodes, hlen with
    | a :: b :: rest, hlen =>
      have hrest : rest.length = 2 * n := by
        simp only [List.length_cons] at hlen
        omega
      obtain ⟨proof, hproof⟩ := ih rest hrest
      exact ⟨(a, b) :: proof, by rw [hproof]; rfl⟩

theorem proofNodes_append (pre post : MerkleProof) :
    proofNodes (pre ++ post) = proofNodes pre ++ proofNodes post := by
  induction pre with
  | nil => rfl
  | cons step rest ih =>
    obtain ⟨s, p⟩ := step
    change s :: p :: proofNodes (rest ++ post) = s :: p :: (proofNodes rest ++ proofNodes post)
    rw [ih]

/-- C6, refuted as stated: on a node list with an odd number of entries `validateTx` panics
instead of returning its error, although the claimed hash differs from the recomputed one,
respectively although the first level matches in neither order. -/
theorem validateTx_odd_node_list_counterexample :
    leafAA ≠ siblingBB ∧
    validateTx sampleHash [siblingBB] siblingBB leafAA = GoError.panic ∧
    sampleHash (leafAA ++ siblingBB) ≠ leafAA ∧
    sampleHash (siblingBB ++ leafAA) ≠ leafAA ∧
    validateTx sampleHash [siblingBB, leafAA, siblingBB] leafAA leafAA = GoError.panic := by
  decide

/-- C6 as amended: on a node list with an even number of entries, `validateTx` returns its
error whenever the claimed hash differs from the recomputed one, whenever some level matches
in neither order (whatever the entries after it hold), and on every extension of a node
list it rejects. -/
theorem validateTx_no_partial_validity (hash : List Nat → Hash) (claimed recomputed : Hash)
    (pre : MerkleProof) (tail : List Hash) (s p : Hash) (hTail : tail.length % 2 = 0) :
    (claimed ≠ recomputed →
      validateTx hash tail recomputed claimed
        = GoError.error (validationFailed claimed)) ∧
    (hash (leafHashAfter hash claimed pre ++ s) ≠ p →
      hash (s ++ leafHashAfter hash claimed pre) ≠ p →
      validateTx hash (proofNodes pre ++ s :: p :: tail) recomputed claimed
        = GoError.error (validationFailed claimed)) ∧
    (validateTx hash (proofNodes pre) recomputed claimed
        = GoError.error (validationFailed claimed) →
      validateTx hash (proofNodes pre ++ tail) recomputed claimed
        = GoError.error (validationFailed claimed)) := by
  obtain ⟨post, hpost⟩ := even_nodes_eq_proofNodes (tail.length / 2) tail (by omega)
  subst hpost
  refine ⟨?_, ?_, ?_⟩
  · intro hne
    rw [validateTx_eq]
    have : specVerify hash claimed recomputed post = false := by
      unfold specVerify
      simp only [hne, decide_False]
      exact specStep_fold_false hash post claimed
    simp [this]
  · intro hA hB
    have hnodes : proofNodes pre ++ s :: p :: proofNodes post
        = proofNodes (pre ++ (s, p) :: post) := by
      rw [proofNodes_append]
      rfl
    rw [hnodes, validateTx_eq, specVerify_reject_level hash claimed recomputed pre post s p hA hB]
    simp
  · intro hpre
    rw [← proofNodes_append]
    rw [validateTx_eq] at hpre ⊢
    have hfalse : specVerify hash claimed recomputed pre = false := by
      cases hv : specVerify hash claimed recomputed pre with
      | false => rfl
      | true => simp [hv] at hpre
    rw [specVerify_extend_rejected hash claimed recomputed pre post hfalse]
    simp

/-- Witness of the amended C6: a first level whose expected parent matches in neither order,
followed by a correct level; a claimed hash that is not the recomputed one; a rejected
one-level node list extended by a level. -/
theorem validateTx_no_partial_validity_witness :
    validateTx sampleHash (proofNodes [] ++ siblingBB :: leafAA ::
        [siblingBB, sampleHash (sampleHash (siblingBB ++ leafAA) ++ siblingBB)])
        leafAA leafAA = GoError.error (validationFailed leafAA) ∧
    validateTx sampleHash [siblingBB, sampleHash (leafAA ++ siblingBB)]
        siblingBB leafAA = GoError.error (validationFailed leafAA) ∧
    validateTx sampleHash (proofNodes [(siblingBB, leafAA)] ++
        [siblingBB, sampleHash (leafAA ++ siblingBB)])
        leafAA leafAA = GoError.error (validationFailed leafAA) :=
  ⟨(validateTx_no_partial_validity sampleHash leafAA leafAA [] _ siblingBB leafAA
      (by decide)).2.1 (by decide) (by decide),
   (validateTx_no_partial_validity sampleHash leafAA siblingBB [] _ siblingBB leafAA
      (by decide)).1 (by decide),
   (validateTx_no_partial_validity sampleHash leafAA leafAA [(siblingBB, leafAA)] _
      siblingBB leafAA (by decide)).2.2 (by decide)⟩

/-- C9, refuted as stated: after a level that matches in neither order the running hash is
the hash of sibling followed by the previous running hash, not the expected parent. -/
theorem leafHash_after_failed_level_counterexample :
    leafHashAfter sampleHash leafAA [(siblingBB, leafAA)] = sampleHash (siblingBB ++ leafAA) ∧
    leafHashAfter sampleHash leafAA [(siblingBB, leafAA)] ≠ leafAA ∧
    validateLoop sampleHash [siblingBB, leafAA] leafAA true
      = some (sampleHash (siblingBB ++ leafAA), false) := by
  decide

/-- C9 as amended: after a level the running hash of `validateTx` is the last hash it
computed there: the expected parent when the level matches in one of the two orders, and
the hash of sibling followed by the previous running hash when it matches in neither. -/
theorem leafHash_after_level (hash : List Nat → Hash) (start : Hash) (pre : MerkleProof)
    (s p : Hash) :
    leafHashAfter hash start (pre ++ [(s, p)])
      = if hash (leafHashAfter hash start pre ++ s) = p
            ∨ hash (s ++ leafHashAfter hash start pre) = p
        then p else hash (s ++ leafHashAfter hash start pre) := by
  rw [leafHashAfter_append, leafHashAfter_cons, leafHashAfter_nil]
  by_cases hA : hash (leafHashAfter hash start pre ++ s) = p
  · simp [hA]
  · by_cases hB : hash (s ++ leafHashAfter hash start pre) = p
    · simp [hA, hB]
    · simp [hA, hB]

/-! ## Theorems: tamper detection -/

theorem validateTx_rejects_level (hash : List Nat → Hash) (claimed recomputed : Hash)
    (pre post : MerkleProof) (s p : Hash)
    (hA : hash (leafHashAfter hash claimed pre ++ s) ≠ p)
    (hB : hash (s ++ leafHashAfter hash claimed pre) ≠ p) :
    validateTx hash (proofNodes (pre ++ (s, p) :: post)) recomputed claimed
      = GoError.error (validationFailed claimed) := by
  rw [validateTx_eq, specVerify_reject_level hash claimed recomputed pre post s p hA hB]
  simp

theorem isLeftPath_split (hash : List Nat → Hash) (leaf : Hash) (pre rest : MerkleProof)
    (hPath : IsLeftPath hash leaf (pre ++ rest)) (hSized : HashSized leaf (pre ++ rest)) :
    (leafHashAfter hash leaf pre).length = 32 ∧
      IsLeftPath hash (leafHashAfter hash leaf pre) rest := by
  induction pre generalizing leaf with
  | nil => exact ⟨hSized.1, hPath⟩
  | cons step more ih =>
    obtain ⟨s, p⟩ := step
    obtain ⟨hp, hmore⟩ := hPath
    rw [leafHashAfter_cons, if_pos hp.symm]
    apply ih p hmore
    refine ⟨?_, ?_⟩
    · exact (hSized.2 (s, p) (by simp)).2
    · intro step hstep
      exact hSized.2 step (by simp [hstep])

theorem swap_ne_of_ne (c s t : List Nat) (hlen : t.length = c.length) (hne : t ≠ s) :
    t ++ c ≠ c ++ s := by
  intro h
  obtain ⟨h1, h2⟩ := List.append_inj h hlen
  exact hne (h1.trans h2)

/-- Tamper detection up to collisions, for any hash function: in a proof of 32-byte hashes
built by left-concatenation, a changed byte of
a sibling is rejected when the hash does not collide between the original input of that
level and the two inputs hashed after the change; a changed byte of an expected parent is
rejected when the changed value is not the hash of sibling followed by running hash, or
when a level follows and the hash does not collide at that next level. -/
theorem validateTx_detects_tampering (hash : List Nat → Hash) (leaf recomputed : Hash)
    (pre post : MerkleProof) (s p : Hash) (i b : Nat)
    (hPath : IsLeftPath hash leaf (pre ++ (s, p) :: post))
    (hSized : HashSized leaf (pre ++ (s, p) :: post)) :
    (s.set i b ≠ s →
      NoCollision hash (leafHashAfter hash leaf pre ++ s.set i b)
        (leafHashAfter hash leaf pre ++ s) →
      NoCollision hash (s.set i b ++ leafHashAfter hash leaf pre)
        (leafHashAfter hash leaf pre ++ s) →
      validateTx hash (proofNodes (pre ++ (s.set i b, p) :: post)) recomputed leaf
        = GoError.error (validationFailed leaf)) ∧
    (p.set i b ≠ p →
      p.set i b ≠ hash (s ++ leafHashAfter hash leaf pre) →
      validateTx hash (proofNodes (pre ++ (s, p.set i b) :: post)) recomputed leaf
        = GoError.error (validationFailed leaf)) ∧
    (∀ (s2 p2 : Hash) (rest : MerkleProof), post = (s2, p2) :: rest →
      p.set i b ≠ p →
      NoCollision hash (p.set i b ++ s2) (p ++ s2) →
      NoCollision hash (s2 ++ p.set i b) (p ++ s2) →
      validateTx hash (proofNodes (pre ++ (s, p.set i b) :: post)) recomputed leaf
        = GoError.error (validationFailed leaf)) := by
  obtain ⟨hcur, hlevel⟩ := isLeftPath_split hash leaf pre ((s, p) :: post) hPath hSized
  obtain ⟨hp, hpost⟩ := hlevel
  have hs : s.length = 32 := (hSized.2 (s, p) (by simp)).1
  have hplen : p.length = 32 := (hSized.2 (s, p) (by simp)).2
  refine ⟨?_, ?_, ?_⟩
  · intro hne hcolA hcolB
    apply validateTx_rejects_level
    · intro h
      rw [hp] at h
      exact hne (List.append_cancel_left (hcolA h))
    · intro h
      rw [hp] at h
      exact swap_ne_of_ne _ s (s.set i b) (by rw [List.length_set, hs, hcur]) hne (hcolB h)
  · intro hne hnotB
    apply validateTx_rejects_level
    · intro h
      rw [← hp] at h
      exact hne h.symm
    · intro h
      exact hnotB h.symm
  · intro s2 p2 rest hpostEq hne hcolA hcolB
    subst hpostEq
    obtain ⟨hp2, _⟩ := hpost
    have hs2 : s2.length = 32 := (hSized.2 (s2, p2) (by simp)).1
    by_cases hacc : hash (leafHashAfter hash leaf pre ++ s) = p.set i b
        ∨ hash (s ++ leafHashAfter hash leaf pre) = p.set i b
    · have hrun : leafHashAfter hash leaf (pre ++ [(s, p.set i b)]) = p.set i b := by
        rw [leafHashAfter_append, leafHashAfter_cons, leafHashAfter_nil]
        rcases hacc with h | h
        · rw [if_pos h]
        · by_cases h1 : hash (leafHashAfter hash leaf pre ++ s) = p.set i b
          · rw [if_pos h1]
          · rw [if_neg h1, h]
      have happ : pre ++ (s, p.set i b) :: (s2, p2) :: rest
          = (pre ++ [(s, p.set i b)]) ++ (s2, p2) :: rest := by simp
      rw [happ]
      apply validateTx_rejects_level
      · rw [hrun]
        intro h
        rw [hp2] at h
        exact hne (List.append_cancel_right (hcolA h))
      · rw [hrun]
        intro h
        rw [hp2] at h
        have hswap := hcolB h
        obtain ⟨h1, h2⟩ := List.append_inj hswap (by rw [hs2, hplen])
        exact hne (h2.trans h1)
    · apply validateTx_rejects_level
      · exact fun h => hacc (Or.inl h)
      · exact fun h => hacc (Or.inr h)

/-- Why tamper detection needs more than the code: with the colliding stand-in
`firstHalfHash`, a changed last byte of the sibling goes
unnoticed; and a changed last byte of the expected parent goes unnoticed when the changed
value is the hash of sibling followed by leaf, although the hash does not collide on the
two inputs involved. -/
theorem validateTx_misses_tampering :
    (IsLeftPath firstHalfHash leafAA [(siblingBB, firstHalfHash (leafAA ++ siblingBB))] ∧
      siblingBB.set 31 0xBC ≠ siblingBB ∧
      validateTx firstHalfHash
        (proofNodes [(siblingBB.set 31 0xBC, firstHalfHash (leafAA ++ siblingBB))])
        leafAA leafAA = GoError.nil) ∧
    (IsLeftPath firstHalfHash leafAA [(siblingAB, firstHalfHash (leafAA ++ siblingAB))] ∧
      (firstHalfHash (leafAA ++ siblingAB)).set 31 0xAB ≠ firstHalfHash (leafAA ++ siblingAB) ∧
      firstHalfHash (leafAA ++ siblingAB) ≠ firstHalfHash (siblingAB ++ leafAA) ∧
      validateTx firstHalfHash
        (proofNodes [(siblingAB, (firstHalfHash (leafAA ++ siblingAB)).set 31 0xAB)])
        leafAA leafAA = GoError.nil) := by
  refine ⟨⟨⟨rfl, trivial⟩, by decide, by decide⟩, ⟨⟨rfl, trivial⟩, by decide, by decide, by decide⟩⟩

/-- The tamper-detection statement on the concrete scenario with `sampleHash`, extended by a
second level, with the
last byte of the first sibling, respectively of the first expected parent, changed. -/
theorem validateTx_detects_tampering_witness :
    validateTx sampleHash
      (proofNodes ([] ++ (siblingBB.set 31 0xBC, sampleHash (leafAA ++ siblingBB)) ::
        [(siblingBB, sampleHash (sampleHash (leafAA ++ siblingBB) ++ siblingBB))]))
      leafAA leafAA = GoError.error (validationFailed leafAA) ∧
    validateTx sampleHash
      (proofNodes ([] ++ (siblingBB, (sampleHash (leafAA ++ siblingBB)).set 31 0xBC) ::
        [(siblingBB, sampleHash (sampleHash (leafAA ++ siblingBB) ++ siblingBB))]))
      leafAA leafAA = GoError.error (validationFailed leafAA) ∧
    validateTx sampleHash
      (proofNodes ([] ++ (siblingBB, (sampleHash (leafAA ++ siblingBB)).set 31 0xBC) ::
        [(siblingBB, sampleHash (sampleHash (leafAA ++ siblingBB) ++ siblingBB))]))
      leafAA leafAA = GoError.error (validationFailed leafAA) :=
  ⟨(validateTx_detects_tampering sampleHash leafAA leafAA []
      [(siblingBB, sampleHash (sampleHash (leafAA ++ siblingBB) ++ siblingBB))]
      siblingBB (sampleHash (leafAA ++ siblingBB)) 31 0xBC
      ⟨rfl, rfl, trivial⟩ ⟨rfl, by decide⟩).1
      (by decide) (fun h => absurd h (by decide)) (fun h => absurd h (by decide)),
   (validateTx_detects_tampering sampleHash leafAA leafAA []
      [(siblingBB, sampleHash (sampleHash (leafAA ++ siblingBB) ++ siblingBB))]
      siblingBB (sampleHash (leafAA ++ siblingBB)) 31 0xBC
      ⟨rfl, rfl, trivial⟩ ⟨rfl, by decide⟩).2.1
      (by decide) (by decide),
   (validateTx_detects_tampering sampleHash leafAA leafAA []
      [(siblingBB, sampleHash (sampleHash (leafAA ++ siblingBB) ++ siblingBB))]
      siblingBB (sampleHash (leafAA ++ siblingBB)) 31 0xBC
      ⟨rfl, rfl, trivial⟩ ⟨rfl, by decide⟩).2.2 _ _ _ rfl
      (by decide) (fun h => absurd h (by decide)) (fun h => absurd h (by decide))⟩

/-! ## Theorems: hex decoding -/

theorem hexDigitVal_hexDigit (n : Nat) (hn : n < 16) : hexDigitVal (hexDigit n) = some n := by
  have h : ∀ k : Fin 16, hexDigitVal (hexDigit k.val) = some k.val := by decide
  exact h ⟨n, hn⟩

theorem hexDigit_not_sign (n : Nat) (hn : n < 16) : hexDigit n ≠ '-' ∧ hexDigit n ≠ '+' := by
  have h : ∀ k : Fin 16, hexDigit k.val ≠ '-' ∧ hexDigit k.val ≠ '+' := by decide
  exact h ⟨n, hn⟩

theorem scanHexDigits_hexChars (bs : List Nat) (acc : Nat) (hbytes : ∀ b ∈ bs, b < 256) :
    scanHexDigits (hexChars bs) acc = some (bs.foldl (fun a b => a * 256 + b) acc) := by
  induction bs generalizing acc with
  | nil => rfl
  | cons b rest ih =>
    have hb : b < 256 := hbytes b (by simp)
    have h1 : b / 16 % 16 < 16 := Nat.mod_lt _ (by decide)
    have h2 : b % 16 < 16 := Nat.mod_lt _ (by decide)
    simp only [hexChars, hexByte, List.cons_append, List.nil_append, scanHexDigits,
      hexDigitVal_hexDigit _ h1, hexDigitVal_hexDigit _ h2, List.foldl_cons]
    have hacc : (acc * 16 + b / 16 % 16) * 16 + b % 16 = acc * 256 + b := by omega
    change scanHexDigits (hexChars rest) _ = _
    rw [ih _ (fun x hx => hbytes x (by simp [hx])), hacc]

theorem SetString16_hexEncode (b : Nat) (rest : List Nat) (hbytes : ∀ x ∈ b :: rest, x < 256) :
    SetString16 (hexEncode (b :: rest)) = some (beValue (b :: rest) : Int) := by
  have h1 : b / 16 % 16 < 16 := Nat.mod_lt _ (by decide)
  have hsign := hexDigit_not_sign _ h1
  have hscan := scanHexDigits_hexChars (b :: rest) 0 hbytes
  simp only [hexChars, hexByte, List.cons_append, List.nil_append] at hscan
  simp only [SetString16, hexEncode, hexChars, hexByte, List.cons_append, List.nil_append,
    hsign.1, hsign.2, or_self, if_false, decide_False, hscan]
  simp [beValue]

theorem beValue_append_singleton (l : List Nat) (b : Nat) :
    beValue (l ++ [b]) = beValue l * 256 + b := by
  simp [beValue, List.foldl_append]

theorem foldl_value_ge (l : List Nat) (acc : Nat) :
    acc ≤ l.foldl (fun a b => a * 256 + b) acc := by
  induction l generalizing acc with
  | nil => exact Nat.le_refl _
  | cons b rest ih =>
    simp only [List.foldl_cons]
    exact Nat.le_trans (by omega) (ih _)

theorem beValue_pos (b : Nat) (rest : List Nat) (hb : b ≠ 0) : 0 < beValue (b :: rest) := by
  have h := foldl_value_ge rest (0 * 256 + b)
  simp only [beValue, List.foldl_cons]
  omega

theorem beValue_zeros (k : Nat) (l : List Nat) :
    beValue (List.replicate k 0 ++ l) = beValue l := by
  induction k with
  | zero => rfl
  | succ k ih =>
    simp only [List.replicate_succ, List.cons_append, beValue, List.foldl_cons] at ih ⊢
    exact ih

theorem natBytesAux_zero (fuel : Nat) (acc : List Nat) : natBytesAux fuel 0 acc = acc := by
  cases fuel <;> simp [natBytesAux]

theorem natBytesAux_beValue (l : List Nat) :
    ∀ (fuel : Nat) (acc : List Nat), (∀ b ∈ l, b < 256) → l.head? ≠ some 0 →
      beValue l ≤ fuel → natBytesAux fuel (beValue l) acc = l ++ acc := by
  induction l using List.reverseRecOn with
  | nil =>
    intro fuel acc _ _ _
    exact natBytesAux_zero fuel acc
  | append_singleton l b ih =>
    intro fuel acc hbytes hhead hfuel
    rw [beValue_append_singleton] at hfuel ⊢
    have hb : b < 256 := hbytes b (by simp)
    have hhead' : l.head? ≠ some 0 := by
      cases l with
      | nil => simp
      | cons x l' => simpa using hhead
    have hpos : 0 < beValue l * 256 + b := by
      cases l with
      | nil =>
        have : b ≠ 0 := by simpa using hhead
        omega
      | cons x l' =>
        have hx : x ≠ 0 := by simpa using hhead
        have := beValue_pos x l' hx
        omega
    cases fuel with
    | zero => omega
    | succ f =>
      have hne : ¬ (beValue l * 256 + b = 0) := by omega
      have hdiv : (beValue l * 256 + b) / 256 = beValue l := by omega
      have hmod : (beValue l * 256 + b) % 256 = b := by omega
      simp only [natBytesAux, hne, if_false, hdiv, hmod]
      rw [ih f (b :: acc) (fun x hx => hbytes x (by simp [hx])) hhead' (by omega)]
      simp

theorem natBytes_beValue (b : Nat) (rest : List Nat) (hbytes : ∀ x ∈ b :: rest, x < 256)
    (hb : b ≠ 0) : natBytes (beValue (b :: rest)) = b :: rest := by
  have h := natBytesAux_beValue (b :: rest) (beValue (b :: rest)) [] hbytes (by simpa using hb)
    (Nat.le_refl _)
  simpa [natBytes] using h

theorem zeros_or_leading (h : List Nat) :
    h = List.replicate h.length 0 ∨
      ∃ k b t, h = List.replicate k 0 ++ b :: t ∧ b ≠ 0 := by
  induction h with
  | nil => exact Or.inl rfl
  | cons x rest ih =>
    by_cases hx : x = 0
    · subst hx
      rcases ih with hz | ⟨k, b, t, hk, hb⟩
      · left
        rw [List.length_cons, List.replicate_succ, ← hz]
      · right
        exact ⟨k + 1, b, t, by rw [hk, List.replicate_succ, List.cons_append], hb⟩
    · right
      exact ⟨0, x, rest, rfl, hx⟩

theorem decodeHexParam_hexEncode (b : Nat) (rest : List Nat) (n : Nat)
    (hbytes : ∀ x ∈ b :: rest, x < 256) :
    decodeHexParam n (hexEncode (b :: rest))
      = some (copyBytes (zeroBytes n) (natBytes (beValue (b :: rest)))) := by
  simp [decodeHexParam, SetString16_hexEncode b rest hbytes, bigIntBytes]

/-- The hashes that survive the trip through `hex.EncodeToString` and the dispatcher's
decoding are those whose first byte is not zero, and the all-zero hash. -/
theorem txHash_round_trip_iff (h : Hash) (hlen : h.length = 32) (hbytes : ∀ b ∈ h, b < 256) :
    decodeHexParam 32 (hexEncode h) = some h ↔ (h.head? ≠ some 0 ∨ h = zeroBytes 32) := by
  cases h with
  | nil => simp at hlen
  | cons b0 rest =>
    rw [decodeHexParam_hexEncode b0 rest 32 hbytes]
    rcases zeros_or_leading (b0 :: rest) with hz | ⟨k, b, t, hk, hb⟩
    · rw [hlen] at hz
      have hval : beValue (b0 :: rest) = 0 := by
        rw [hz]
        decide
      rw [hval]
      have : copyBytes (zeroBytes 32) (natBytes 0) = b0 :: rest := by
        rw [hz]
        decide
      rw [this]
      exact ⟨fun _ => Or.inr hz, fun _ => rfl⟩
    · have hbt : ∀ x ∈ b :: t, x < 256 := by
        intro x hx
        apply hbytes
        rw [hk]
        simp only [List.mem_append]
        exact Or.inr hx
      have hval : natBytes (beValue (b0 :: rest)) = b :: t := by
        rw [hk, beValue_zeros, natBytes_beValue b t hbt hb]
      have hlen2 : k + (t.length + 1) = 32 := by
        have := congrArg List.length hk
        simp only [List.length_append, List.length_replicate, List.length_cons] at this hlen
        omega
      have hcopy : copyBytes (zeroBytes 32) (b :: t) = b :: (t ++ List.replicate k 0) := by
        have h32 : 32 - (b :: t).length = k := by
          simp only [List.length_cons]
          omega
        have hle : (b :: t).length ≤ 32 := by
          simp only [List.length_cons]
          omega
        unfold copyBytes zeroBytes
        rw [List.length_replicate, List.take_of_length_le hle, List.drop_replicate, h32]
        rfl
      rw [hval, hcopy]
      cases k with
      | zero =>
        simp only [List.replicate_zero, List.nil_append, List.append_nil] at hk ⊢
        rw [hk]
        simp [hb]
      | succ k =>
        rw [List.replicate_succ, List.cons_append] at hk
        have hb0 : b0 = 0 := (List.cons.inj hk).1
        constructor
        · intro heq
          have := (List.cons.inj (Option.some.inj heq)).1
          exact absurd (this.trans hb0) hb
        · rintro (hhead | hzero)
          · exact absurd (by simp [hb0]) hhead
          · exfalso
            have hmem : b ∈ b0 :: rest := by
              rw [hk]
              simp
            rw [hzero] at hmem
            exact hb (List.eq_of_mem_replicate hmem)

/-- A byte string of length `n` whose first byte is not zero survives the trip through
`hex.EncodeToString` and the decoding into an `n`-byte array. -/
theorem decodeHexParam_round_trip (n b : Nat) (rest : List Nat)
    (hlen : (b :: rest).length = n) (hbytes : ∀ x ∈ b :: rest, x < 256) (hb : b ≠ 0) :
    decodeHexParam n (hexEncode (b :: rest)) = some (b :: rest) := by
  rw [decodeHexParam_hexEncode b rest n hbytes, natBytes_beValue b rest hbytes hb]
  unfold copyBytes zeroBytes
  rw [List.length_replicate, List.take_of_length_le (Nat.le_of_eq hlen), List.drop_replicate,
    hlen, Nat.sub_self]
  simp

/-! ## Theorems: dispatch -/


/-- C1 on the code: a contract or config record staged under `hash11` is still staged in its
own registry after `sendTxEndpoint` has dispatched it, whether the transport accepts or
fails; the funds record is evicted. -/
theorem sendTxEndpoint_contract_config_not_evicted :
    stagedContract.staged TxType.ACCTX_BRDCST hash11 = true ∧
    (sendTxEndpoint sendOk stagedContract sendParams11 TxType.ACCTX_BRDCST).map
      (fun out => out.state.staged TxType.ACCTX_BRDCST hash11) = some true ∧
    (sendTxEndpoint sendFails stagedContract sendParams11 TxType.ACCTX_BRDCST).map
      (fun out => out.state.staged TxType.ACCTX_BRDCST hash11) = some true ∧
    stagedConfig.staged TxType.CONFIGTX_BRDCST hash11 = true ∧
    (sendTxEndpoint sendOk stagedConfig sendParams11 TxType.CONFIGTX_BRDCST).map
      (fun out => out.state.staged TxType.CONFIGTX_BRDCST hash11) = some true ∧
    (sendTxEndpoint sendFails stagedConfig sendParams11 TxType.CONFIGTX_BRDCST).map
      (fun out => out.state.staged TxType.CONFIGTX_BRDCST hash11) = some true ∧
    (sendTxEndpoint sendFails stagedFunds sendParams11 TxType.FUNDSTX_BRDCST).map
      (fun out => out.state.staged TxType.FUNDSTX_BRDCST hash11) = some false := by
  decide

/-- What holds of eviction for every input: after dispatching a staged hash, the hash is
still staged in the registry of its kind exactly when the kind is not the funds kind. -/
theorem sendTxEndpoint_evicts_only_funds (SendTx : Transaction → TxType → Option String)
    (st : Registries) (params : SendParams) (txType : TxType) (txHash txSign : List Nat)
    (hHash : decodeHexParam 32 params.txHash = some txHash)
    (hSign : decodeHexParam 64 params.txSign = some txSign)
    (hStaged : st.staged txType txHash = true) :
    ∃ out, sendTxEndpoint SendTx st params txType = some out ∧
      out.state.staged txType txHash = decide (txType ≠ TxType.FUNDSTX_BRDCST) := by
  unfold sendTxEndpoint
  simp only [hHash, hSign]
  cases txType <;> simp only [Registries.staged] at hStaged ⊢
  · cases hget : st.UnsignedContractTx txHash with
    | none => simp [hget] at hStaged
    | some tx => exact ⟨_, rfl, by simp [TxMap.put]⟩
  · cases hget : st.UnsignedConfigTx txHash with
    | none => simp [hget] at hStaged
    | some tx => exact ⟨_, rfl, by simp [TxMap.put]⟩
  · cases hget : st.UnsignedFundsTx txHash with
    | none => simp [hget] at hStaged
    | some tx => exact ⟨_, rfl, by simp [TxMap.delete]⟩

/-- In terms of what the dispatcher decodes: when the decoded hash is not staged in the
registry of the kind, `sendTxEndpoint`
answers with status 500 and the message `No transaction with hash ... found to sign`, calls
the transport not at all, and leaves the three registries as they were. -/
theorem sendTxEndpoint_absent_decoded (SendTx : Transaction → TxType → Option String)
    (st : Registries) (params : SendParams) (txType : TxType) (txHash txSign : List Nat)
    (hHash : decodeHexParam 32 params.txHash = some txHash)
    (hSign : decodeHexParam 64 params.txSign = some txSign)
    (hAbsent : st.staged txType txHash = false) :
    ∃ out, sendTxEndpoint SendTx st params txType = some out ∧
      out.response = JsonResponse.mk 500
        ("No transaction with hash " ++ hexEncode txHash ++ " found to sign") [] ∧
      out.sent = [] ∧
      out.state = st := by
  unfold sendTxEndpoint
  simp only [hHash, hSign]
  cases txType <;> simp only [Registries.staged] at hAbsent ⊢
  · cases hget : st.UnsignedContractTx txHash with
    | none => exact ⟨_, rfl, rfl, rfl, rfl⟩
    | some tx => simp [hget] at hAbsent
  · cases hget : st.UnsignedConfigTx txHash with
    | none => exact ⟨_, rfl, rfl, rfl, rfl⟩
    | some tx => simp [hget] at hAbsent
  · cases hget : st.UnsignedFundsTx txHash with
    | none => exact ⟨_, rfl, rfl, rfl, rfl⟩
    | some tx => simp [hget] at hAbsent

/-- C2, refuted as stated: with no record staged and a `txSign` that `SetString` rejects, the
call panics and writes no response; and with `hash00` absent but a funds record staged under
the array its hex form decodes to, the dispatch of `hash00` broadcasts that record and
answers 200. -/
theorem sendTxEndpoint_absent_hash_counterexample :
    Registries.empty.staged TxType.FUNDSTX_BRDCST hash11 = false ∧
    (sendTxEndpoint sendOk Registries.empty { txHash := hexEncode hash11, txSign := "zz" }
      TxType.FUNDSTX_BRDCST).isNone = true ∧
    stagedFundsShifted.staged TxType.FUNDSTX_BRDCST hash00 = false ∧
    (sendTxEndpoint sendOk stagedFundsShifted
        { txHash := hexEncode hash00, txSign := hexEncode sig22 } TxType.FUNDSTX_BRDCST).map
      (fun out => (out.response.Code, out.sent))
      = some (200, [(Transaction.funds { sampleFundsTx with Sig := sig22 },
          TxType.FUNDSTX_BRDCST)]) := by
  decide

/-- C2 as amended: for a 32-byte hash whose first byte is not zero, or the all-zero hash,
sent as its hex form together with a `txSign` that `SetString` accepts: when the hash is not
staged in the registry of the kind, `sendTxEndpoint` answers with status 500 and the message
`No transaction with hash ... found to sign`, calls the transport not at all, and leaves the
three registries as they were. -/
theorem sendTxEndpoint_not_staged (SendTx : Transaction → TxType → Option String)
    (st : Registries) (txType : TxType) (txHash : Hash) (txSign : String) (txSignInt : Int)
    (hlen : txHash.length = 32) (hbytes : ∀ b ∈ txHash, b < 256)
    (hhead : txHash.head? ≠ some 0 ∨ txHash = zeroBytes 32)
    (hSign : SetString16 txSign = some txSignInt)
    (hAbsent : st.staged txType txHash = false) :
    ∃ out, sendTxEndpoint SendTx st { txHash := hexEncode txHash, txSign := txSign } txType
        = some out ∧
      out.response = JsonResponse.mk 500
        ("No transaction with hash " ++ hexEncode txHash ++ " found to sign") [] ∧
      out.sent = [] ∧
      out.state = st :=
  sendTxEndpoint_absent_decoded SendTx st { txHash := hexEncode txHash, txSign := txSign } txType
    txHash (copyBytes (zeroBytes 64) (bigIntBytes txSignInt))
    ((txHash_round_trip_iff txHash hlen hbytes).2 hhead)
    (by simp [decodeHexParam, hSign]) hAbsent

/-- Witness of the amended C2: a funds dispatch of `hash11`, sent as its hex form with a
signed upper-case `txSign`, while only a contract record is staged under that hash. -/
theorem sendTxEndpoint_not_staged_witness :
    ∃ out, sendTxEndpoint sendOk stagedContract
        { txHash := hexEncode hash11, txSign := "-0A1b" } TxType.FUNDSTX_BRDCST = some out ∧
      out.response = JsonResponse.mk 500
        ("No transaction with hash " ++ hexEncode hash11 ++ " found to sign") [] ∧
      out.sent = [] ∧
      out.state = stagedContract :=
  sendTxEndpoint_not_staged sendOk stagedContract TxType.FUNDSTX_BRDCST hash11 "-0A1b" (-2587)
    (by decide) (by decide) (by decide) (by decide) (by decide)

/-- In terms of what the dispatcher decodes: dispatching a staged hash makes exactly one
transport call, with the staged record
carrying the decoded signature and tagged with the kind; the response is status 200 with
the first eight bytes of the hash in hex exactly when the transport returns no error, and
status 500 with the transport's message otherwise. -/
theorem sendTxEndpoint_dispatch_decoded (SendTx : Transaction → TxType → Option String)
    (st : Registries) (params : SendParams) (txType : TxType) (txHash txSign : List Nat)
    (tx : Transaction)
    (hHash : decodeHexParam 32 params.txHash = some txHash)
    (hSign : decodeHexParam 64 params.txSign = some txSign)
    (hStaged : st.get txType txHash = some tx) :
    ∃ out, sendTxEndpoint SendTx st params txType = some out ∧
      out.sent = [(tx.withSig txSign, txType)] ∧
      (out.response = JsonResponse.mk 200
          ("Transaction " ++ hexEncode (txHash.take 8) ++ " successfully sent to network.") []
        ↔ SendTx (tx.withSig txSign) txType = none) ∧
      (∀ msg, SendTx (tx.withSig txSign) txType = some msg →
        out.response = JsonResponse.mk 500 msg []) := by
  unfold sendTxEndpoint
  simp only [hHash, hSign]
  cases txType <;> simp only [Registries.get] at hStaged ⊢
  · cases hget : st.UnsignedContractTx txHash with
    | none => simp [hget] at hStaged
    | some rec =>
      simp only [hget, Option.map_some', Option.some.injEq] at hStaged
      subst hStaged
      refine ⟨_, rfl, rfl, ?_, ?_⟩
      · simp only [Transaction.withSig]
        cases herr : SendTx (Transaction.contract { rec with Sig := txSign })
            TxType.ACCTX_BRDCST with
        | none => simp [sendResponse, StatusOK]
        | some msg => simp [sendResponse, StatusInternalServerError]
      · intro msg hmsg
        simp only [Transaction.withSig] at hmsg
        simp [hmsg, sendResponse, StatusInternalServerError]
  · cases hget : st.UnsignedConfigTx txHash with
    | none => simp [hget] at hStaged
    | some rec =>
      simp only [hget, Option.map_some', Option.some.injEq] at hStaged
      subst hStaged
      refine ⟨_, rfl, rfl, ?_, ?_⟩
      · simp only [Transaction.withSig]
        cases herr : SendTx (Transaction.config { rec with Sig := txSign })
            TxType.CONFIGTX_BRDCST with
        | none => simp [sendResponse, StatusOK]
        | some msg => simp [sendResponse, StatusInternalServerError]
      · intro msg hmsg
        simp only [Transaction.withSig] at hmsg
        simp [hmsg, sendResponse, StatusInternalServerError]
  · cases hget : st.UnsignedFundsTx txHash with
    | none => simp [hget] at hStaged
    | some rec =>
      simp only [hget, Option.map_some', Option.some.injEq] at hStaged
      subst hStaged
      refine ⟨_, rfl, rfl, ?_, ?_⟩
      · simp only [Transaction.withSig]
        cases herr : SendTx (Transaction.funds { rec with Sig := txSign })
            TxType.FUNDSTX_BRDCST with
        | none => simp [sendResponse, StatusOK]
        | some msg => simp [sendResponse, StatusInternalServerError]
      · intro msg hmsg
        simp only [Transaction.withSig] at hmsg
        simp [hmsg, sendResponse, StatusInternalServerError]

/-- The decoded-level dispatch statement on a staged funds record and a transport that
fails. -/
theorem sendTxEndpoint_dispatch_decoded_example :
    ∃ out, sendTxEndpoint sendFails stagedFunds sendParams11 TxType.FUNDSTX_BRDCST = some out ∧
      out.sent = [((Transaction.funds sampleFundsTx).withSig sig22, TxType.FUNDSTX_BRDCST)] ∧
      (out.response = JsonResponse.mk 200
          ("Transaction " ++ hexEncode (hash11.take 8) ++ " successfully sent to network.") []
        ↔ sendFails ((Transaction.funds sampleFundsTx).withSig sig22)
            TxType.FUNDSTX_BRDCST = none) ∧
      (∀ msg, sendFails ((Transaction.funds sampleFundsTx).withSig sig22)
            TxType.FUNDSTX_BRDCST = some msg →
        out.response = JsonResponse.mk 500 msg []) :=
  sendTxEndpoint_dispatch_decoded sendFails stagedFunds sendParams11 TxType.FUNDSTX_BRDCST
    hash11 sig22 (Transaction.funds sampleFundsTx) (by decide) (by decide) (by decide)

/-- C8 on the code: a funds record staged under `hash00` and dispatched with the hex form of
`hash00` is answered with status 500 and no transport call; and a record dispatched with
the hex form of the signature `sig00` is broadcast with the signature bytes moved one place
to the front, not with `sig00`. -/
theorem sendTxEndpoint_leading_zero_misdispatch :
    stagedFunds00.get TxType.FUNDSTX_BRDCST hash00 = some (Transaction.funds sampleFundsTx) ∧
    (sendTxEndpoint sendOk stagedFunds00
        { txHash := hexEncode hash00, txSign := hexEncode sig22 } TxType.FUNDSTX_BRDCST).map
      (fun out => (out.response, out.sent))
      = some (JsonResponse.mk 500
          ("No transaction with hash " ++ hexEncode shiftedHash00 ++ " found to sign") [],
          []) ∧
    sig00.length = 64 ∧
    (sendTxEndpoint sendOk stagedFunds
        { txHash := hexEncode hash11, txSign := hexEncode sig00 } TxType.FUNDSTX_BRDCST).map
      (fun out => out.sent)
      = some [(Transaction.funds { sampleFundsTx with Sig := List.replicate 63 0x22 ++ [0] },
          TxType.FUNDSTX_BRDCST)] ∧
    (Transaction.funds { sampleFundsTx with Sig := List.replicate 63 0x22 ++ [0] })
      ≠ (Transaction.funds sampleFundsTx).withSig sig00 := by
  decide

/-- Dispatch of a staged hash sent as its hex form with a signature sent as its hex form,
both with a first byte that is not zero: one transport call carrying the staged record with
that signature and the kind tag; status 200 exactly when the transport returns no error,
status 500 with the transport's message otherwise. -/
theorem sendTxEndpoint_dispatch_hex (SendTx : Transaction → TxType → Option String)
    (st : Registries) (txType : TxType) (h0 s0 : Nat) (hrest srest : List Nat)
    (tx : Transaction)
    (hlen : (h0 :: hrest).length = 32) (hbytes : ∀ b ∈ h0 :: hrest, b < 256) (hh : h0 ≠ 0)
    (slen : (s0 :: srest).length = 64) (sbytes : ∀ b ∈ s0 :: srest, b < 256) (hs : s0 ≠ 0)
    (hStaged : st.get txType (h0 :: hrest) = some tx) :
    ∃ out, sendTxEndpoint SendTx st
        { txHash := hexEncode (h0 :: hrest), txSign := hexEncode (s0 :: srest) } txType
        = some out ∧
      out.sent = [(tx.withSig (s0 :: srest), txType)] ∧
      (out.response = JsonResponse.mk 200
          ("Transaction " ++ hexEncode ((h0 :: hrest).take 8)
            ++ " successfully sent to network.") []
        ↔ SendTx (tx.withSig (s0 :: srest)) txType = none) ∧
      (∀ msg, SendTx (tx.withSig (s0 :: srest)) txType = some msg →
        out.response = JsonResponse.mk 500 msg []) :=
  sendTxEndpoint_dispatch_decoded SendTx st _ txType (h0 :: hrest) (s0 :: srest) tx
    (decodeHexParam_round_trip 32 h0 hrest hlen hbytes hh)
    (decodeHexParam_round_trip 64 s0 srest slen sbytes hs) hStaged

/-! ## Theorems: staging -/

theorem stagedOver_contract (st : Registries) (h : Hash) (tx : ContractTx) :
    StagedOver st { st with UnsignedContractTx := st.UnsignedContractTx.put h tx }
      TxType.ACCTX_BRDCST h (Transaction.contract tx) := by
  refine ⟨by simp [Registries.get, TxMap.put], ?_⟩
  intro otherType key hne
  cases otherType
  · have hk : key ≠ h := by
      rcases hne with hne | hne
      · exact absurd rfl hne
      · exact hne
    simp [Registries.get, TxMap.put, hk]
  · rfl
  · rfl

theorem stagedOver_config (st : Registries) (h : Hash) (tx : ConfigTx) :
    StagedOver st { st with UnsignedConfigTx := st.UnsignedConfigTx.put h tx }
      TxType.CONFIGTX_BRDCST h (Transaction.config tx) := by
  refine ⟨by simp [Registries.get, TxMap.put], ?_⟩
  intro otherType key hne
  cases otherType
  · rfl
  · have hk : key ≠ h := by
      rcases hne with hne | hne
      · exact absurd rfl hne
      · exact hne
    simp [Registries.get, TxMap.put, hk]
  · rfl

theorem stagedOver_funds (st : Registries) (h : Hash) (tx : FundsTx) :
    StagedOver st { st with UnsignedFundsTx := st.UnsignedFundsTx.put h tx }
      TxType.FUNDSTX_BRDCST h (Transaction.funds tx) := by
  refine ⟨by simp [Registries.get, TxMap.put], ?_⟩
  intro otherType key hne
  cases otherType
  · rfl
  · rfl
  · have hk : key ≠ h := by
      rcases hne with hne | hne
      · exact absurd rfl hne
      · exact hne
    simp [Registries.get, TxMap.put, hk]

/-- C7, refuted as stated: with a hex route variable that `SetString` rejects, the funds and
both contract endpoints end in a panic; no record is staged and no response is written. -/
theorem create_panics_on_bad_hex :
    (CreateFundsTxEndpoint (constHashing hash11) Registries.empty
      { sampleFundsParams with fromPub := "zz" }).isNone = true ∧
    (CreateContractTxEndpoint (constHashing hash11) sampleKey Registries.empty
      { header := "0", fee := "1", issuer := "0x1f" }).isNone = true ∧
    (CreateContractTxEndpointWithPubKey (constHashing hash11) Registries.empty
      { header := "0", fee := "1", pubKey := "12g4", issuer := "1f" }).isNone = true := by
  decide

/-- C7 as amended: whenever the hex route variables of a create endpoint are accepted by
`SetString` in base 16 (the config endpoint has none), the call completes, the registry of
its kind maps the hash of the record just built to that record, whatever was stored under
that hash before, every other key and both other registries are unchanged, and the field
`TxHash` of the response is that hash in hex. -/
theorem create_stages_under_own_hash (H : TxHashing) (st : Registries) :
    (∀ (key : EcdsaKey) (params : ContractParams) (issuerInt : Int),
      SetString16 params.issuer = some issuerInt →
      CreatedAs (CreateContractTxEndpoint H key st params) st TxType.ACCTX_BRDCST
        (H.contractHash (newContractTx params issuerInt key))
        (Transaction.contract (newContractTx params issuerInt key))) ∧
    (∀ (params : ContractPubKeyParams) (fromPubInt issuerInt : Int),
      SetString16 params.pubKey = some fromPubInt →
      SetString16 params.issuer = some issuerInt →
      CreatedAs (CreateContractTxEndpointWithPubKey H st params) st TxType.ACCTX_BRDCST
        (H.contractHash (newContractTxWithPubKey params fromPubInt issuerInt))
        (Transaction.contract (newContractTxWithPubKey params fromPubInt issuerInt))) ∧
    (∀ (params : ConfigParams),
      CreatedAs (CreateConfigTxEndpoint H st params) st TxType.CONFIGTX_BRDCST
        (H.configHash (newConfigTx params)) (Transaction.config (newConfigTx params))) ∧
    (∀ (params : FundsParams) (fromPubInt toPubInt : Int),
      SetString16 params.fromPub = some fromPubInt →
      SetString16 params.toPub = some toPubInt →
      CreatedAs (CreateFundsTxEndpoint H st params) st TxType.FUNDSTX_BRDCST
        (H.fundsHash (newFundsTx params fromPubInt toPubInt))
        (Transaction.funds (newFundsTx params fromPubInt toPubInt))) := by
  refine ⟨?_, ?_, ?_, ?_⟩
  · intro key params issuerInt hIssuer
    unfold CreateContractTxEndpoint
    simp only [hIssuer]
    exact ⟨_, _, rfl, stagedOver_contract st _ _, rfl, rfl⟩
  · intro params fromPubInt issuerInt hPub hIssuer
    unfold CreateContractTxEndpointWithPubKey
    simp only [hPub, hIssuer]
    exact ⟨_, _, rfl, stagedOver_contract st _ _, rfl, rfl⟩
  · intro params
    unfold CreateConfigTxEndpoint
    exact ⟨_, _, rfl, stagedOver_config st _ _, rfl, rfl⟩
  · intro params fromPubInt toPubInt hFrom hTo
    unfold CreateFundsTxEndpoint
    simp only [hFrom, hTo]
    exact ⟨_, _, rfl, stagedOver_funds st _ _, rfl, rfl⟩

/-- Witness of the amended C7: a funds creation over registries that already hold a funds
record under the hash the new record gets; the new record replaces it. -/
theorem create_stages_under_own_hash_witness :
    stagedFunds.get TxType.FUNDSTX_BRDCST hash11 = some (Transaction.funds sampleFundsTx) ∧
    CreatedAs (CreateFundsTxEndpoint (constHashing hash11) stagedFunds sampleFundsParams)
      stagedFunds TxType.FUNDSTX_BRDCST
      ((constHashing hash11).fundsHash (newFundsTx sampleFundsParams 10 11))
      (Transaction.funds (newFundsTx sampleFundsParams 10 11)) :=
  ⟨by decide,
   (create_stages_under_own_hash (constHashing hash11) stagedFunds).2.2.2
     sampleFundsParams 10 11 (by decide) (by decide)⟩

/-- C10 on the code: the hash `00 01 01 ... 01` is returned by the create endpoint as
`0001...01`, which the dispatcher decodes to `01 ... 01 00`; the dispatch of a record
staged under that hash therefore finds nothing, sends nothing, and leaves it staged. -/
theorem txHash_decode_drops_leading_zero :
    decodeHexParam 32 (hexEncode hash00) = some (List.replicate 31 1 ++ [0]) ∧
    decodeHexParam 32 (hexEncode hash00) ≠ some hash00 ∧
    ((CreateFundsTxEndpoint (constHashing hash00) Registries.empty sampleFundsParams).bind
      (fun created => (created.2.field "TxHash").bind
        (fun txHash =>
          (sendTxEndpoint sendOk created.1 { txHash := txHash, txSign := hexEncode sig22 }
            TxType.FUNDSTX_BRDCST).map
          (fun out => (out.response, out.sent, out.state.staged TxType.FUNDSTX_BRDCST hash00)))))
      = some (JsonResponse.mk 500
          ("No transaction with hash " ++ hexEncode (List.replicate 31 1 ++ [0])
            ++ " found to sign") [], [], true) := by
  decide

/-! ## Theorems: funds command -/

/-- What `ValidateInput` accepts on the code: the sender file is named, the counter is not
negative, a recipient file is named or the address has 128 bytes, and the amount is not
zero; the fee plays no part. -/
theorem ValidateInput_nil_iff (args : fundsArgs) :
    args.ValidateInput = GoError.nil ↔
      (strLen args.fromWalletFile ≠ 0 ∧ 0 ≤ args.txcount ∧
        (strLen args.toWalletFile ≠ 0 ∨ strLen args.toAddress = 128) ∧ 0 < args.amount) := by
  unfold fundsArgs.ValidateInput
  split_ifs with h1 h2 h3 h4 h5 h6
  · simp [h1]
  · simp only [reduceCtorEq, false_iff]
    omega
  · simp only [reduceCtorEq, false_iff]
    omega
  · simp only [reduceCtorEq, false_iff]
    omega
  · omega
  · simp only [reduceCtorEq, false_iff]
    omega
  · simp only [true_iff]
    refine ⟨h1, by omega, ?_, by omega⟩
    by_cases hw : strLen args.toWalletFile = 0
    · right
      by_contra hne
      exact h4 ⟨hw, hne⟩
    · exact Or.inl hw

/-- Every argument set with amount zero is refused, with one of the error messages. -/
theorem ValidateInput_zero_amount (args : fundsArgs) (hAmount : args.amount = 0) :
    ∃ msg, args.ValidateInput = GoError.error msg := by
  unfold fundsArgs.ValidateInput
  split_ifs with h1 h2 h3 h4 h5 h6
  · exact ⟨_, rfl⟩
  · exact ⟨_, rfl⟩
  · exact ⟨_, rfl⟩
  · exact ⟨_, rfl⟩
  · exact ⟨_, rfl⟩
  · exact ⟨_, rfl⟩
  · omega

/-- C11 on the code: with a fee of zero and every other argument in order, `ValidateInput`
returns `nil`; the same arguments with amount zero are refused with the amount message. -/
theorem ValidateInput_accepts_zero_fee :
    zeroFeeArgs.fee = 0 ∧
    zeroFeeArgs.ValidateInput = GoError.nil ∧
    fundsArgs.ValidateInput { zeroFeeArgs with amount := 0 }
      = GoError.error "invalid argument: amount must be > 0" := by
  decide

end Bazo
